import Mathlib

/-!
Verification of the delivery-orders dashboard (`src/orders.py`).

The script is a pandas/streamlit pipeline: load CSV → hub filter → derive
`Picked Date` → date-range filter → pivot to a date × status count matrix →
reindex to a fixed status vocabulary → add a Total column → build a display
copy with a Grand Total row → show summary metrics → show / export the
`pivot_records` row set.

This file shallowly embeds that pipeline: a table is a list of typed order
records (the loader's per-column coercion is modelled separately, columnwise,
at the end of the definitions), pandas timestamps are a day number plus a
time-of-day, `NaN` cells are `Option.none`, and the pivot's `aggfunc='count'`
semantics (count of non-null `Order Number` values per group) is kept.
-/

/-- A pandas timestamp: calendar day (as an integer day number) plus a
time-of-day component.  `.dt.date` projects out the day. -/
structure Timestamp where
  day : Int
  minuteOfDay : Nat
deriving DecidableEq, Repr

/-- The date portion of a timestamp (`Series.dt.date` in `orders.py` line 47). -/
def Timestamp.date (t : Timestamp) : Int := t.day

/-- One row of the loaded table, restricted to the columns the pipeline reads.
Every cell may be `NaN` in a real CSV, hence the `Option`s. -/
structure OrderRecord where
  orderNumber : Option String
  deliveryHub : Option String
  status : Option String
  pickedOn : Option Timestamp
deriving DecidableEq, Repr

/-- Derived `Picked Date` column (line 47): date part of `Picked on`,
null when `Picked on` is null. -/
def pickedDate (r : OrderRecord) : Option Int := r.pickedOn.map Timestamp.date

/-- The fixed status vocabulary `status_columns` (lines 72-76). -/
def status_columns : List String :=
  ["Assigned", "At-Hub", "Moving-To-Hub",
   "Out-For-Delivery", "Picked", "Returned",
   "Returned-To-Hub", "Unable-To-Deliver"]

/-- Hub filter (line 44): `df[df['Delivery Hub'].isin(selected_hubs)] if
selected_hubs else df`.  An empty selection is falsy in Python, so no
restriction is applied; `isin` is false on a null hub value. -/
def hubFilter (selectedHubs : List String) (rows : List OrderRecord) :
    List OrderRecord :=
  if selectedHubs.isEmpty then rows
  else rows.filter fun r =>
    match r.deliveryHub with
    | some h => selectedHubs.contains h
    | none => false

/-- Sorted distinct values of a date column (`sorted(col.dropna().unique())`,
also the row order a pandas pivot gives its index). -/
def sortedUnique (l : List Int) : List Int :=
  List.insertionSort (· ≤ ·) l.dedup

/-- The `unique_dates` list of line 50: sorted distinct non-null
`Picked Date` values of the hub-filtered frame. -/
def uniqueDates (rows : List OrderRecord) : List Int :=
  sortedUnique (rows.filterMap pickedDate)

/-- Membership test of a `Picked Date` in the inclusive selected range
(lines 66-69); comparisons with a null date are false in pandas. -/
def inDateRange (startDate endDate : Int) (r : OrderRecord) : Bool :=
  match pickedDate r with
  | some d => decide (startDate ≤ d) && decide (d ≤ endDate)
  | none => false

/-- Date-range filtering (lines 53-69): the date widget exists only when
`unique_dates` is non-empty, and the restriction is applied only when the
selection has exactly two entries. -/
def applyDateFilter (selectedDates : List Int) (rows : List OrderRecord) :
    List OrderRecord :=
  if (uniqueDates rows).isEmpty then rows
  else if selectedDates.length = 2 then
    rows.filter (inDateRange (selectedDates.getD 0 0) (selectedDates.getD 1 0))
  else rows

/-- The whole Filter Stage: hub filter, then the date-range filter on the
hub-filtered frame (the `unique_dates` guard is computed on that frame). -/
def filteredRows (rows : List OrderRecord) (selectedHubs : List String)
    (selectedDates : List Int) : List OrderRecord :=
  applyDateFilter selectedDates (hubFilter selectedHubs rows)

/-- Eligibility test of lines 81-84: status is in the vocabulary and
`Picked Date` is non-null. -/
def isPivotRecord (r : OrderRecord) : Bool :=
  (match r.status with
   | some s => status_columns.contains s
   | none => false) && (pickedDate r).isSome

/-- `pivot_records` (lines 81-84): the filtered rows eligible for the pivot. -/
def pivotRecords (rows : List OrderRecord) : List OrderRecord :=
  rows.filter isPivotRecord

/-- The pivot index: sorted distinct `Picked Date` values of the records fed
to `pivot_table` (pandas sorts group keys). -/
def pivotIndex (recs : List OrderRecord) : List Int :=
  sortedUnique (recs.filterMap pickedDate)

/-- The raw pivot columns: the distinct `Status` values observed in the
records fed to `pivot_table` (pandas sorts them). -/
def observedStatuses (recs : List OrderRecord) : List String :=
  List.insertionSort (· ≤ ·) (recs.filterMap (fun r => r.status)).dedup

/-- One pivot cell before reindexing: `aggfunc='count'` on
`values='Order Number'` counts the rows of the group whose `Order Number`
is non-null (pandas `count` ignores NaN); `fill_value=0` makes absent
(date, status) combinations zero. -/
def cellCount (recs : List OrderRecord) (d : Int) (s : String) : Nat :=
  (recs.filter fun r =>
    (pickedDate r == some d) && (r.status == some s) && r.orderNumber.isSome).length

/-- A pandas DataFrame with a date-valued index, as produced by
`pivot_table`: row labels, column labels, and a cell function. -/
structure Frame where
  index : List Int
  cols : List String
  cell : Int → String → Nat

/-- `pivot_table` of lines 87-93: index = observed dates, columns = observed
statuses, cells = per-group non-null `Order Number` counts, dense with 0. -/
def rawPivot (recs : List OrderRecord) : Frame :=
  { index := pivotIndex recs
    cols := observedStatuses recs
    cell := fun d s => cellCount recs d s }

/-- `reindex(columns=status_columns, fill_value=0)` (line 96): the column
list becomes exactly the vocabulary; stray columns are dropped and columns
absent from the data are filled with 0. -/
def reindexCols (f : Frame) (newCols : List String) : Frame :=
  { f with cols := newCols
           cell := fun d s => if s ∈ f.cols then f.cell d s else 0 }

/-- `pivot_data['Total'] = pivot_data.sum(axis=1)` (line 99): append a Total
column summing the current columns of each row. -/
def addTotal (f : Frame) : Frame :=
  { f with cols := f.cols ++ ["Total"]
           cell := fun d s =>
             if s = "Total" then (f.cols.map (f.cell d)).sum else f.cell d s }

/-- `pivot_data`, the numeric pivot copy used for statistics (lines 87-99). -/
def pivotData (rows : List OrderRecord) : Frame :=
  addTotal (reindexCols (rawPivot (pivotRecords rows)) status_columns)

/-- A DataFrame whose index has been converted to strings (line 108), as the
display copy is. -/
structure DisplayFrame where
  index : List String
  cols : List String
  cell : String → String → Nat

/-- Column sums over the per-date rows: `display_data.sum().to_dict()` of
line 105, computed before the Grand Total row is appended. -/
def colSum (f : Frame) (s : String) : Nat :=
  (f.index.map fun d => f.cell d s).sum

/-- `display_data` (lines 102-111): a copy of the pivot with a string index
and an appended `Grand Total` row holding the column sums. -/
def displayData (rows : List OrderRecord) : DisplayFrame :=
  let p := pivotData rows
  { index := p.index.map toString ++ ["Grand Total"]
    cols := p.cols
    cell := fun r s =>
      if r = "Grand Total" then colSum p s
      else ((p.index.find? fun d => toString d == r).map fun d => p.cell d s).getD 0 }

/-- The `Total Orders` metric (line 128): `display_data.loc['Grand Total', 'Total']`. -/
def totalOrdersMetric (rows : List OrderRecord) : Nat :=
  (displayData rows).cell "Grand Total" "Total"

/-- The `Unique Dates` metric (line 130): `len(pivot_data)`. -/
def uniqueDatesMetric (rows : List OrderRecord) : Nat :=
  (pivotData rows).index.length

/-- The per-date `Total` column of the numeric pivot, as a list. -/
def totalsList (rows : List OrderRecord) : List Nat :=
  (pivotData rows).index.map fun d => (pivotData rows).cell d "Total"

/-- Round-half-to-even to an integer, as Python's built-in `round` does. -/
def roundHalfEven (q : ℚ) : ℤ :=
  let f : ℤ := ⌊q⌋
  let r : ℚ := q - f
  if r < 1/2 then f
  else if 1/2 < r then f + 1
  else if f % 2 = 0 then f else f + 1

/-- Python's `round(x, 1)`: round half-to-even at one decimal place. -/
def pyRound1 (q : ℚ) : ℚ := (roundHalfEven (10 * q) : ℚ) / 10

/-- `pivot_data['Total'].mean()` over exact rationals: sum of the per-date
Total column divided by the number of per-date rows. -/
def meanTotals (rows : List OrderRecord) : ℚ :=
  ((totalsList rows).sum : ℚ) / ((totalsList rows).length : ℚ)

/-- The `Average Orders per Day` metric (line 132):
`round(pivot_data['Total'].mean(), 1)`. -/
def avgOrdersMetric (rows : List OrderRecord) : ℚ :=
  pyRound1 (meanTotals rows)

/-- What one run of `main` on an uploaded file produces after the filter
widgets: `success fr` renders the pivot built from `fr` together with
`pivotRecords fr` and the download button; `fallback fr` is the caught
schema-error path of lines 147-150 (error message plus the unaggregated
filtered rows); `crash col` is an uncaught `KeyError` on column `col`
raised before the `try` block (lines 36 and 47). -/
inductive Outcome where
  | success : List OrderRecord → Outcome
  | fallback : List OrderRecord → Outcome
  | crash : String → Outcome
deriving DecidableEq, Repr

/-- Control flow of `main` (lines 36-150) over the set of columns the CSV
actually has.  `df['Delivery Hub']` (line 36) and
`filtered_df['Picked on'].dt.date` (line 47) run before the `try` block, so
a missing `Delivery Hub` or `Picked on` column raises an uncaught
`KeyError`; missing `Status` (line 82) or `Order Number` (line 90) raises
inside the `try` and is caught by the `except` of line 147, which shows a
diagnostic and the unaggregated filtered frame. -/
def runMain (cols : List String) (rows : List OrderRecord)
    (selectedHubs : List String) (selectedDates : List Int) : Outcome :=
  if "Delivery Hub" ∈ cols then
    if "Picked on" ∈ cols then
      let fr := filteredRows rows selectedHubs selectedDates
      if "Status" ∈ cols then
        if "Order Number" ∈ cols then Outcome.success fr
        else Outcome.fallback fr
      else Outcome.fallback fr
    else Outcome.crash "Picked on"
  else Outcome.crash "Delivery Hub"

/-! ### Loader model (columnwise)

`load_data` (lines 7-23) parses the CSV and then, for each name in the fixed
`date_cols` list that is present, reinterprets that column as timestamps
with `pd.to_datetime(..., errors='coerce')`.  A DataFrame is a dict of
columns, so the model is columnwise: an association list from column name to
cell list. -/

/-- A cell of the loaded table: a raw string, a parsed timestamp, or `NaN`. -/
inductive Cell where
  | str : String → Cell
  | ts : Timestamp → Cell
  | missing : Cell
deriving DecidableEq, Repr

/-- A DataFrame as pandas holds it: named columns of equal length. -/
structure DataTable where
  cols : List (String × List Cell)

/-- The fixed `date_cols` list of lines 11-14. -/
def date_cols : List String :=
  ["Picked on", "First attempted on", "Last attempted on",
   "First Out-For-Delivery on", "Latest Out-For-Delivery on",
   "Returned Datetime on", "Delivered on", "First Delivery Unable-To",
   "Last Delivery Unable-To", "RTO on", "Date Placed", "Expected delivery"]

/-- `pd.to_datetime(cell, errors='coerce')` on one cell, given the parsing
function: an unparsable string or a missing value becomes `NaT` (modelled
`missing`); an already-parsed timestamp passes through. -/
def coerceCell (parse : String → Option Timestamp) : Cell → Cell
  | Cell.str s =>
      match parse s with
      | some t => Cell.ts t
      | none => Cell.missing
  | Cell.ts t => Cell.ts t
  | Cell.missing => Cell.missing

/-- One iteration of the loader's loop (lines 16-18):
`if col in df.columns: df[col] = pd.to_datetime(df[col], errors='coerce')`. -/
def toDatetimeCol (parse : String → Option Timestamp) (t : DataTable)
    (col : String) : DataTable :=
  if (t.cols.map Prod.fst).contains col then
    { cols := t.cols.map fun p =>
        if p.1 = col then (p.1, p.2.map (coerceCell parse)) else p }
  else t

/-- `load_data` (lines 7-23): `none` input stands for a CSV that failed to
parse (`read_csv` raised; the `except` reports the error and returns
`None`); otherwise every date column present is coerced. -/
def load_data (parse : String → Option Timestamp) (csv : Option DataTable) :
    Option DataTable :=
  match csv with
  | none => none
  | some t => some (date_cols.foldl (toDatetimeCol parse) t)

/-- Look a column up by name (first match, as a pandas dict of columns). -/
def getCol (t : DataTable) (name : String) : Option (List Cell) :=
  t.cols.lookup name

/-! ### Spec-side definitions

The next two definitions follow the words of claims under test, not the
source; they exist only to be compared with the pipeline's output. -/

/-- Spec-side: the sorted distinct non-null `Picked Date` values of a whole
record set (claim C4 says the pivot index equals this even when a date
occurs only on rows whose status is outside the vocabulary). -/
def allPickedDates (rows : List OrderRecord) : List Int :=
  sortedUnique (rows.filterMap pickedDate)

/-- Spec-side: the number of eligible rows with a given date and status
(claim C3 says each pivot cell equals this, with no condition on
`Order Number`). -/
def eligibleCellCount (rows : List OrderRecord) (d : Int) (s : String) : Nat :=
  ((pivotRecords rows).filter fun r =>
    (pickedDate r == some d) && (r.status == some s)).length

/-- The number of eligible rows whose `Order Number` is non-null; pandas
`count` aggregation makes this, not `(pivotRecords rows).length`, the grand
total. -/
def countedRecords (rows : List OrderRecord) : Nat :=
  ((pivotRecords rows).filter fun r => r.orderNumber.isSome).length

/-! ### Concrete sample inputs

Used by the closed instances of the theorems below. -/

/-- Three orders over two picked dates; one has a status outside the
vocabulary (the example of spec §8, property 6). -/
def sampleRows : List OrderRecord :=
  [⟨some "1", some "H1", some "Picked", some ⟨0, 5⟩⟩,
   ⟨some "2", some "H1", some "Delivered", some ⟨0, 6⟩⟩,
   ⟨some "3", some "H2", some "Picked", some ⟨1, 7⟩⟩]

/-- An eligible order (vocabulary status, non-null picked date) whose
`Order Number` cell is null. -/
def nullOrderRow : OrderRecord := ⟨none, some "H1", some "Picked", some ⟨0, 0⟩⟩

/-- An order whose picked date appears on no vocabulary-status row. -/
def strayStatusRow : OrderRecord := ⟨some "9", some "H1", some "Delivered", some ⟨5, 0⟩⟩

/-- Six orders over three distinct picked dates with per-date counts
1, 2 and 3. -/
def threeDayRows : List OrderRecord :=
  [⟨some "a", some "H", some "Picked", some ⟨0, 0⟩⟩,
   ⟨some "b", some "H", some "Picked", some ⟨1, 0⟩⟩,
   ⟨some "c", some "H", some "Returned", some ⟨1, 1⟩⟩,
   ⟨some "d", some "H", some "Picked", some ⟨2, 0⟩⟩,
   ⟨some "e", some "H", some "Assigned", some ⟨2, 1⟩⟩,
   ⟨some "f", some "H", some "At-Hub", some ⟨2, 2⟩⟩]

/-- A small raw table: `Picked on` is a date column with one parsable and
one unparsable cell, the other two columns are not date columns. -/
def sampleTable : DataTable :=
  { cols := [("Order Number", [Cell.str "1", Cell.str "2"]),
             ("Picked on", [Cell.str "2024-01-01", Cell.str "bogus"]),
             ("Delivery Hub", [Cell.str "H1", Cell.missing])] }

/-- A concrete timestamp parser recognizing a single date string. -/
def sampleParse : String → Option Timestamp :=
  fun s => if s = "2024-01-01" then some ⟨0, 0⟩ else none

/-! ### Helper lemmas -/

theorem mem_sortedUnique {a : Int} {l : List Int} : a ∈ sortedUnique l ↔ a ∈ l :=
  ((List.perm_insertionSort _ _).mem_iff).trans List.mem_dedup

theorem nodup_sortedUnique (l : List Int) : (sortedUnique l).Nodup :=
  (List.perm_insertionSort _ _).nodup_iff.mpr (List.nodup_dedup l)

theorem length_sortedUnique (l : List Int) :
    (sortedUnique l).length = l.dedup.length :=
  (List.perm_insertionSort _ _).length_eq

theorem mem_pivotIndex {recs : List OrderRecord} {d : Int} :
    d ∈ pivotIndex recs ↔ ∃ r ∈ recs, pickedDate r = some d := by
  unfold pivotIndex
  rw [mem_sortedUnique, List.mem_filterMap]

theorem mem_observedStatuses {recs : List OrderRecord} {s : String} :
    s ∈ observedStatuses recs ↔ ∃ r ∈ recs, r.status = some s := by
  unfold observedStatuses
  rw [(List.perm_insertionSort _ _).mem_iff, List.mem_dedup, List.mem_filterMap]

theorem cellCount_eq_zero_of_not_status {recs : List OrderRecord} {s : String}
    (h : ∀ r ∈ recs, r.status ≠ some s) (d : Int) : cellCount recs d s = 0 := by
  unfold cellCount
  have hnil : (recs.filter fun r =>
      (pickedDate r == some d) && (r.status == some s) && r.orderNumber.isSome) = [] := by
    apply List.filter_eq_nil_iff.mpr
    intro r hr
    simp only [Bool.and_eq_true, beq_iff_eq, not_and]
    intro hcon
    exact absurd hcon.2 (h r hr)
  rw [hnil]
  rfl

theorem reindexed_cell (recs : List OrderRecord) (d : Int) (s : String) :
    (reindexCols (rawPivot recs) status_columns).cell d s = cellCount recs d s := by
  unfold reindexCols rawPivot
  dsimp only
  by_cases hobs : s ∈ observedStatuses recs
  · rw [if_pos hobs]
  · rw [if_neg hobs]
    refine (cellCount_eq_zero_of_not_status ?_ d).symm
    intro r hr he
    exact hobs (mem_observedStatuses.mpr ⟨r, hr, he⟩)

theorem pivotData_cols (rows : List OrderRecord) :
    (pivotData rows).cols = status_columns ++ ["Total"] := rfl

theorem pivotData_index (rows : List OrderRecord) :
    (pivotData rows).index = pivotIndex (pivotRecords rows) := rfl

theorem pivotData_cell_of_ne_total (rows : List OrderRecord) {s : String}
    (hT : s ≠ "Total") (d : Int) :
    (pivotData rows).cell d s = cellCount (pivotRecords rows) d s := by
  unfold pivotData addTotal
  dsimp only
  rw [if_neg hT, reindexed_cell]

theorem pivotData_cell_total (rows : List OrderRecord) (d : Int) :
    (pivotData rows).cell d "Total"
      = (status_columns.map fun s => cellCount (pivotRecords rows) d s).sum := by
  unfold pivotData addTotal
  dsimp only
  rw [if_pos rfl]
  exact congrArg List.sum
    (List.map_congr_left fun s _ => reindexed_cell (pivotRecords rows) d s)

theorem displayData_grand_total_cell (rows : List OrderRecord) (s : String) :
    (displayData rows).cell "Grand Total" s = colSum (pivotData rows) s := by
  unfold displayData
  dsimp only
  rw [if_pos rfl]

theorem displayData_index (rows : List OrderRecord) :
    (displayData rows).index
      = (pivotData rows).index.map toString ++ ["Grand Total"] := rfl

theorem sum_map_add {α : Type} (l : List α) (f g : α → Nat) :
    (l.map fun x => f x + g x).sum = (l.map f).sum + (l.map g).sum := by
  induction l with
  | nil => rfl
  | cons x xs ih =>
    simp only [List.map_cons, List.sum_cons, ih]
    omega

theorem sum_map_ite_eq {α : Type} [DecidableEq α] (l : List α) (a : α)
    (hl : l.Nodup) (ha : a ∈ l) (k : α → Nat) :
    (l.map fun x => if x = a then k x else 0).sum = k a := by
  induction l with
  | nil => cases ha
  | cons x xs ih =>
    rcases List.nodup_cons.mp hl with ⟨hx, hxs⟩
    rcases List.mem_cons.mp ha with h | hmem
    · subst h
      simp only [List.map_cons, List.sum_cons, if_pos rfl]
      have hz : (xs.map fun y => if y = a then k y else 0).sum = 0 := by
        apply List.sum_eq_zero
        intro n hn
        rcases List.mem_map.mp hn with ⟨y, hy, rfl⟩
        rw [if_neg]
        intro e
        exact hx (e ▸ hy)
      rw [hz]
      simp
    · have hne : x ≠ a := fun e => hx (e ▸ hmem)
      simp only [List.map_cons, List.sum_cons, if_neg hne, ih hxs hmem]
      omega

theorem cellCount_cons (r : OrderRecord) (recs : List OrderRecord)
    (d : Int) (s : String) :
    cellCount (r :: recs) d s
      = (if (pickedDate r == some d) && (r.status == some s) && r.orderNumber.isSome
         then 1 else 0) + cellCount recs d s := by
  unfold cellCount
  rw [List.filter_cons]
  by_cases h :
      ((pickedDate r == some d) && (r.status == some s) && r.orderNumber.isSome) = true
  · rw [if_pos h, if_pos h, List.length_cons]
    omega
  · rw [if_neg h, if_neg h]
    omega

theorem sum_sum_cellCount (idx : List Int) (cols : List String)
    (hidx : idx.Nodup) (hcols : cols.Nodup) :
    ∀ recs : List OrderRecord,
      (∀ r ∈ recs, ∃ d ∈ idx, pickedDate r = some d) →
      (∀ r ∈ recs, ∃ s ∈ cols, r.status = some s) →
      (idx.map fun d => (cols.map fun s => cellCount recs d s).sum).sum
        = (recs.filter fun r => r.orderNumber.isSome).length := by
  intro recs
  induction recs with
  | nil =>
    intro _ _
    simp [cellCount]
  | cons r recs ih =>
    intro hd hs
    obtain ⟨d0, hd0mem, hd0eq⟩ := hd r (List.mem_cons_self r recs)
    obtain ⟨s0, hs0mem, hs0eq⟩ := hs r (List.mem_cons_self r recs)
    have hdr : ∀ x ∈ recs, ∃ d ∈ idx, pickedDate x = some d :=
      fun x hx => hd x (List.mem_cons_of_mem r hx)
    have hsr : ∀ x ∈ recs, ∃ s ∈ cols, x.status = some s :=
      fun x hx => hs x (List.mem_cons_of_mem r hx)
    have step :
        (idx.map fun d => (cols.map fun s => cellCount (r :: recs) d s).sum).sum
          = (idx.map fun d => (cols.map fun s =>
                (if (pickedDate r == some d) && (r.status == some s) && r.orderNumber.isSome
                 then 1 else 0)).sum).sum
            + (idx.map fun d => (cols.map fun s => cellCount recs d s).sum).sum := by
      rw [← sum_map_add]
      refine congrArg List.sum (List.map_congr_left ?_)
      intro d _
      rw [← sum_map_add]
      refine congrArg List.sum (List.map_congr_left ?_)
      intro s _
      exact cellCount_cons r recs d s
    have hind :
        (idx.map fun d => (cols.map fun s =>
            (if (pickedDate r == some d) && (r.status == some s) && r.orderNumber.isSome
             then (1:Nat) else 0)).sum).sum
          = if r.orderNumber.isSome then 1 else 0 := by
      by_cases hord : r.orderNumber.isSome = true
      · have hbool : ∀ d s,
            ((pickedDate r == some d) && (r.status == some s) && r.orderNumber.isSome)
              = ((d0 == d) && (s0 == s)) := by
          intro d s
          rw [hd0eq, hs0eq, hord]
          simp
        have inner : ∀ d ∈ idx,
            (cols.map fun s =>
              (if (pickedDate r == some d) && (r.status == some s) && r.orderNumber.isSome
               then (1:Nat) else 0)).sum = if d = d0 then 1 else 0 := by
          intro d _
          by_cases hdd : d = d0
          · subst hdd
            rw [if_pos rfl]
            have hcongr : ∀ s ∈ cols,
                (if (pickedDate r == some d) && (r.status == some s) && r.orderNumber.isSome
                 then (1:Nat) else 0) = if s = s0 then (1:Nat) else 0 := by
              intro s _
              rw [hbool]
              by_cases hss : s = s0
              · subst hss
                simp
              · have hb : (s0 == s) = false := by
                  simp only [beq_eq_false_iff_ne, ne_eq]
                  exact fun e => hss e.symm
                simp [hss, hb]
            rw [List.map_congr_left hcongr]
            exact sum_map_ite_eq cols s0 hcols hs0mem (fun _ => 1)
          · rw [if_neg hdd]
            apply List.sum_eq_zero
            intro n hn
            rcases List.mem_map.mp hn with ⟨s, _, rfl⟩
            rw [hbool]
            have hb : (d0 == d) = false := by
              simp only [beq_eq_false_iff_ne, ne_eq]
              exact fun e => hdd e.symm
            simp [hb]
        rw [List.map_congr_left inner, hord, if_pos rfl]
        exact sum_map_ite_eq idx d0 hidx hd0mem (fun _ => 1)
      · rw [Bool.not_eq_true] at hord
        simp [hord]
    rw [step, hind, List.filter_cons]
    by_cases hord : r.orderNumber.isSome = true
    · rw [if_pos hord, if_pos hord, List.length_cons, ih hdr hsr]
      omega
    · rw [if_neg hord, if_neg hord, ih hdr hsr]
      omega

theorem isPivotRecord_iff {r : OrderRecord} :
    isPivotRecord r = true
      ↔ (∃ s ∈ status_columns, r.status = some s) ∧ ∃ d, pickedDate r = some d := by
  unfold isPivotRecord
  cases hst : r.status with
  | none =>
    simp [hst]
  | some s =>
    cases hpd : pickedDate r with
    | none => simp [hpd]
    | some d =>
      simp only [hpd, Option.isSome_some, Bool.and_true, hst]
      constructor
      · intro hc
        exact ⟨⟨s, List.elem_iff.mp hc, rfl⟩, d, rfl⟩
      · rintro ⟨⟨x, hx, he⟩, -⟩
        cases he
        exact List.elem_iff.mpr hx

theorem mem_pivotRecords {rows : List OrderRecord} {r : OrderRecord} :
    r ∈ pivotRecords rows ↔ r ∈ rows ∧ isPivotRecord r = true :=
  List.mem_filter

theorem pivotRecords_date_in_index {rows : List OrderRecord} {r : OrderRecord}
    (h : r ∈ pivotRecords rows) :
    ∃ d ∈ pivotIndex (pivotRecords rows), pickedDate r = some d := by
  obtain ⟨-, hp⟩ := mem_pivotRecords.mp h
  obtain ⟨-, d, hd⟩ := isPivotRecord_iff.mp hp
  exact ⟨d, mem_pivotIndex.mpr ⟨r, h, hd⟩, hd⟩

theorem pivotRecords_status_in_vocab {rows : List OrderRecord} {r : OrderRecord}
    (h : r ∈ pivotRecords rows) :
    ∃ s ∈ status_columns, r.status = some s := by
  obtain ⟨-, hp⟩ := mem_pivotRecords.mp h
  exact (isPivotRecord_iff.mp hp).1

/-! ### Claims -/

/-- C1: for every input row set, the aggregated pivot's column set is exactly
the fixed status vocabulary plus `Total`, independent of which statuses occur
in the data; a vocabulary status with no occurrences is an all-zero column,
and no stray status column survives the reindex. -/
theorem c1_pivot_column_set (rows : List OrderRecord) :
    (pivotData rows).cols = status_columns ++ ["Total"]
    ∧ (displayData rows).cols = status_columns ++ ["Total"]
    ∧ ∀ s ∈ status_columns,
        (∀ r ∈ pivotRecords rows, r.status ≠ some s) →
        ∀ d, (pivotData rows).cell d s = 0 := by
  refine ⟨rfl, rfl, ?_⟩
  intro s hs hnone d
  have hT : s ≠ "Total" := fun e => absurd (e ▸ hs) (by decide)
  rw [pivotData_cell_of_ne_total rows hT d]
  exact cellCount_eq_zero_of_not_status hnone d

theorem c1_witness :
    (pivotData sampleRows).cell 0 "Assigned" = 0 :=
  (c1_pivot_column_set sampleRows).2.2 "Assigned" (by decide) (by decide) 0

/-- C2: in the numeric pivot, each date row's Total equals the sum of that
row's vocabulary-column counts and of no other column; the display copy's
Grand Total cell of the Total column equals the sum of the per-date Totals;
and the Grand Total row exists only in the display copy, whose index is the
numeric pivot's dates (as strings) plus the one extra label. -/
theorem c2_total_column_and_grand_total (rows : List OrderRecord) :
    (∀ d ∈ (pivotData rows).index,
       (pivotData rows).cell d "Total"
         = (status_columns.map fun s => (pivotData rows).cell d s).sum)
    ∧ (displayData rows).cell "Grand Total" "Total"
        = ((pivotData rows).index.map fun d => (pivotData rows).cell d "Total").sum
    ∧ (displayData rows).index
        = (pivotData rows).index.map toString ++ ["Grand Total"] := by
  refine ⟨?_, ?_, rfl⟩
  · intro d _
    rw [pivotData_cell_total]
    refine congrArg List.sum (List.map_congr_left fun s hs => ?_)
    have hT : s ≠ "Total" := fun e => absurd (e ▸ hs) (by decide)
    exact (pivotData_cell_of_ne_total rows hT d).symm
  · rw [displayData_grand_total_cell]
    rfl

theorem c2_witness :
    (pivotData sampleRows).cell 0 "Total"
      = (status_columns.map fun s => (pivotData sampleRows).cell 0 s).sum :=
  (c2_total_column_and_grand_total sampleRows).1 0 (by decide)

/-- C10 (amended): the Grand Total of the Total column — the Total Orders
metric — equals the number of eligible rows whose `Order Number` is
non-null.  Pandas `count` aggregation skips null order numbers, so this is
not in general the size of the displayed and exported `pivot_records` set. -/
theorem c10_grand_total_counts_nonnull_orders (rows : List OrderRecord) :
    (displayData rows).cell "Grand Total" "Total" = countedRecords rows := by
  rw [displayData_grand_total_cell]
  unfold colSum countedRecords
  rw [pivotData_index]
  rw [List.map_congr_left fun d _ => pivotData_cell_total rows d]
  exact sum_sum_cellCount (pivotIndex (pivotRecords rows)) status_columns
    (nodup_sortedUnique _) (by decide) (pivotRecords rows)
    (fun r hr => pivotRecords_date_in_index hr)
    (fun r hr => pivotRecords_status_in_vocab hr)

/-- C10 counterexample: one eligible row with a null `Order Number` is in
`pivot_records` (length 1) but the grand total is 0, so the aggregate does
not conserve the eligible-record count. -/
theorem c10_counterexample :
    ¬ ((displayData [nullOrderRow]).cell "Grand Total" "Total"
        = (pivotRecords [nullOrderRow]).length) := by
  decide

theorem eligibility_absorb {s : String} (hs : s ∈ status_columns) (d : Int)
    (r : OrderRecord) :
    (((pickedDate r == some d) && (r.status == some s) && r.orderNumber.isSome)
        && isPivotRecord r)
      = ((r.status == some s) && (pickedDate r == some d) && r.orderNumber.isSome) := by
  unfold isPivotRecord
  cases hst : r.status with
  | none => simp
  | some x =>
    cases hpd : pickedDate r with
    | none => simp
    | some y =>
      by_cases hx : x = s
      · subst hx
        have hc : status_columns.contains x = true := List.elem_iff.mpr hs
        simp [hc, hs, Bool.and_comm, Bool.and_assoc, Bool.and_left_comm]
      · have hb : (some x == some s) = false := by simp [hx]
        simp [hb]

/-- C3 (amended): for a vocabulary status `s`, the pivot cell at `(d, s)`
equals the number of filtered rows with that status, that picked date, and a
non-null `Order Number`; combinations with no such rows are present as zero.
An eligible row whose `Order Number` is null contributes nothing (pandas
`count` skips it). -/
theorem c3_cell_counts (rows : List OrderRecord) (d : Int) {s : String}
    (hs : s ∈ status_columns) :
    (pivotData rows).cell d s
      = (rows.filter fun r =>
          (r.status == some s) && (pickedDate r == some d)
            && r.orderNumber.isSome).length := by
  have hT : s ≠ "Total" := fun e => absurd (e ▸ hs) (by decide)
  rw [pivotData_cell_of_ne_total rows hT d]
  unfold cellCount pivotRecords
  rw [List.filter_filter]
  exact congrArg List.length (List.filter_congr fun r _ => eligibility_absorb hs d r)

theorem c3_witness :
    (pivotData sampleRows).cell 0 "Picked"
      = (sampleRows.filter fun r =>
          (r.status == some "Picked") && (pickedDate r == some 0)
            && r.orderNumber.isSome).length :=
  c3_cell_counts sampleRows 0 (by decide)

/-- C3 counterexample: a single eligible row (vocabulary status, non-null
picked date) with a null `Order Number` gives cell value 0, not the eligible
row count 1 — the claim's "count of eligible rows" is wrong for it. -/
theorem c3_counterexample :
    ¬ ((pivotData [nullOrderRow]).cell 0 "Picked"
        = eligibleCellCount [nullOrderRow] 0 "Picked") := by
  decide

/-- C4 (amended): the pivot's row keys are exactly the distinct non-null
picked dates of the rows whose status is in the vocabulary; a date occurring
only on rows with a status outside the vocabulary is not a pivot row. -/
theorem c4_index_characterization (rows : List OrderRecord) (d : Int) :
    d ∈ (pivotData rows).index
      ↔ ∃ r ∈ rows,
          (∃ s ∈ status_columns, r.status = some s) ∧ pickedDate r = some d := by
  rw [pivotData_index, mem_pivotIndex]
  constructor
  · rintro ⟨r, hr, hd⟩
    exact ⟨r, (mem_pivotRecords.mp hr).1, pivotRecords_status_in_vocab hr, hd⟩
  · rintro ⟨r, hr, hvoc, hd⟩
    exact ⟨r, mem_pivotRecords.mpr ⟨hr, isPivotRecord_iff.mpr ⟨hvoc, d, hd⟩⟩, hd⟩

/-- C4 counterexample: a record set whose only non-null picked date sits on
a row with status `Delivered` (outside the vocabulary) yields an empty pivot
index, not the claimed set of all distinct non-null picked dates. -/
theorem c4_counterexample :
    ¬ ((pivotData [strayStatusRow]).index = allPickedDates [strayStatusRow]) := by
  decide

/-- C5: an empty hub selection leaves the row set unchanged, exactly as no
hub filter; for a non-empty selection a row is kept iff its `Delivery Hub`
value is a member of the selected set (a null hub is never a member). -/
theorem c5_hub_filter (rows : List OrderRecord) (sel : List String) :
    hubFilter [] rows = rows
    ∧ (sel ≠ [] → ∀ r, r ∈ hubFilter sel rows
        ↔ r ∈ rows ∧ ∃ h ∈ sel, r.deliveryHub = some h) := by
  constructor
  · rfl
  · intro hne r
    unfold hubFilter
    rw [if_neg (by simpa using hne)]
    rw [List.mem_filter]
    refine and_congr_right fun _ => ?_
    cases hh : r.deliveryHub with
    | none => simp
    | some h =>
      simp only [List.elem_iff]
      constructor
      · intro hmem
        exact ⟨h, hmem, rfl⟩
      · rintro ⟨x, hx, he⟩
        cases he
        exact hx

theorem c5_witness :
    (⟨some "1", some "H1", some "Picked", some ⟨0, 5⟩⟩ : OrderRecord)
        ∈ hubFilter ["H1"] sampleRows
      ↔ (⟨some "1", some "H1", some "Picked", some ⟨0, 5⟩⟩ : OrderRecord)
          ∈ sampleRows
        ∧ ∃ h ∈ ["H1"],
            (⟨some "1", some "H1", some "Picked", some ⟨0, 5⟩⟩ : OrderRecord).deliveryHub
              = some h :=
  (c5_hub_filter sampleRows ["H1"]).2 (by decide) _

/-- C9: the date-range restriction is applied only when the selection has
exactly two dates; with any other selection length the hub-filtered rows —
null picked dates included — pass through to aggregation unchanged. -/
theorem c9_date_filter_arity (rows : List OrderRecord) (selHubs : List String)
    (selDates : List Int) :
    (selDates.length ≠ 2 →
       filteredRows rows selHubs selDates = hubFilter selHubs rows)
    ∧ ((uniqueDates (hubFilter selHubs rows)).isEmpty = false →
       selDates.length = 2 →
       filteredRows rows selHubs selDates
         = (hubFilter selHubs rows).filter
             (inDateRange (selDates.getD 0 0) (selDates.getD 1 0))) := by
  constructor
  · intro hne
    unfold filteredRows applyDateFilter
    by_cases he : (uniqueDates (hubFilter selHubs rows)).isEmpty = true
    · rw [if_pos he]
    · rw [if_neg he, if_neg hne]
  · intro he h2
    unfold filteredRows applyDateFilter
    rw [if_neg (by simp [he]), if_pos h2]

theorem c9_witness :
    filteredRows sampleRows ["H1"] [0] = hubFilter ["H1"] sampleRows
    ∧ filteredRows sampleRows ["H1"] [0, 1]
        = (hubFilter ["H1"] sampleRows).filter (inDateRange 0 1) :=
  ⟨(c9_date_filter_arity sampleRows ["H1"] [0]).1 (by decide),
   (c9_date_filter_arity sampleRows ["H1"] [0, 1]).2 (by decide) rfl⟩

/-- C6: for a non-empty pivot, Total Orders equals the grand total of the
Total column, Unique Dates equals the number of distinct per-date rows, and
Average Orders per Day equals round(sum(Total) / count(distinct dates), 1),
the mean being computed over the numeric pivot's per-date rows only (the
Grand Total row lives in the display copy and never feeds these). -/
theorem c6_summary_metrics (rows : List OrderRecord)
    (_hne : (pivotData rows).index ≠ []) :
    totalOrdersMetric rows = (totalsList rows).sum
    ∧ uniqueDatesMetric rows
        = ((pivotRecords rows).filterMap pickedDate).dedup.length
    ∧ avgOrdersMetric rows
        = pyRound1 (((totalsList rows).sum : ℚ) / (uniqueDatesMetric rows : ℚ)) := by
  refine ⟨?_, ?_, ?_⟩
  · unfold totalOrdersMetric totalsList
    rw [displayData_grand_total_cell]
    rfl
  · unfold uniqueDatesMetric
    rw [pivotData_index]
    exact length_sortedUnique _
  · unfold avgOrdersMetric meanTotals uniqueDatesMetric
    have hlen : (totalsList rows).length = (pivotData rows).index.length :=
      List.length_map _ _
    rw [hlen]

theorem c6_witness :
    (pivotData threeDayRows).index ≠ []
    ∧ (totalOrdersMetric threeDayRows = (totalsList threeDayRows).sum
      ∧ uniqueDatesMetric threeDayRows
          = ((pivotRecords threeDayRows).filterMap pickedDate).dedup.length
      ∧ avgOrdersMetric threeDayRows
          = pyRound1 (((totalsList threeDayRows).sum : ℚ)
              / (uniqueDatesMetric threeDayRows : ℚ))) :=
  ⟨by decide, c6_summary_metrics threeDayRows (by decide)⟩

/-- C7 (amended): a missing `Status` or `Order Number` column makes the
aggregation raise inside the `try`, which is caught — the app reports a
schema error and falls back to displaying the unaggregated filtered rows,
without terminating the process.  A missing `Picked on` (the Picked Date
source), however, raises at line 47 before the `try` block, so the failure
is an uncaught exception, not the claimed schema-error fallback. -/
theorem c7_schema_error_fallback (cols : List String) (rows : List OrderRecord)
    (selHubs : List String) (selDates : List Int) :
    ("Delivery Hub" ∈ cols → "Picked on" ∈ cols →
       ("Status" ∉ cols ∨ "Order Number" ∉ cols) →
       runMain cols rows selHubs selDates
         = Outcome.fallback (filteredRows rows selHubs selDates))
    ∧ ("Delivery Hub" ∈ cols → "Picked on" ∉ cols →
       runMain cols rows selHubs selDates = Outcome.crash "Picked on") := by
  constructor
  · intro hdh hpo hmiss
    unfold runMain
    rw [if_pos hdh, if_pos hpo]
    rcases hmiss with hst | hor
    · rw [if_neg hst]
    · by_cases hst : "Status" ∈ cols
      · rw [if_pos hst, if_neg hor]
      · rw [if_neg hst]
  · intro hdh hpo
    unfold runMain
    rw [if_pos hdh, if_neg hpo]

theorem c7_witness :
    runMain ["Delivery Hub", "Picked on"] [] [] []
      = Outcome.fallback (filteredRows [] [] []) :=
  (c7_schema_error_fallback ["Delivery Hub", "Picked on"] [] [] []).1
    (by decide) (by decide) (Or.inl (by decide))

/-- C7 counterexample: with `Status` and `Order Number` present but the
Picked Date source `Picked on` absent, the run does not fall back to
displaying the filtered rows: line 47 raises an uncaught `KeyError` before
the `try` block is entered. -/
theorem c7_counterexample :
    runMain ["Delivery Hub", "Status", "Order Number"] [] [] []
      ≠ Outcome.fallback (filteredRows [] [] []) := by
  decide

theorem lookup_cons_eq {β : Type} (k : String) (v : β) (l : List (String × β)) :
    List.lookup k ((k, v) :: l) = some v := by
  simp [List.lookup]

theorem lookup_cons_ne {β : Type} {name k : String} (h : name ≠ k) (v : β)
    (l : List (String × β)) :
    List.lookup name ((k, v) :: l) = List.lookup name l := by
  have hb : (name == k) = false := by simp [h]
  simp [List.lookup, hb]

theorem lookup_eq_none_of_not_mem {β : Type} {l : List (String × β)}
    {name : String} (h : name ∉ l.map Prod.fst) : List.lookup name l = none := by
  induction l with
  | nil => rfl
  | cons p l ih =>
    obtain ⟨k, v⟩ := p
    simp only [List.map_cons, List.mem_cons, not_or] at h
    rw [lookup_cons_ne h.1 v l]
    exact ih h.2

theorem lookup_map_modify (g : List Cell → List Cell) (c name : String)
    (l : List (String × List Cell)) :
    List.lookup name (l.map fun p => if p.1 = c then (p.1, g p.2) else p)
      = if name = c then (List.lookup name l).map g else List.lookup name l := by
  induction l with
  | nil => by_cases h : name = c <;> simp [List.lookup, h]
  | cons p l ih =>
    obtain ⟨k, v⟩ := p
    rw [List.map_cons]
    have hred : (if (k, v).1 = c then ((k, v).1, g (k, v).2) else (k, v))
        = if k = c then (k, g v) else (k, v) := rfl
    rw [hred]
    by_cases hkc : k = c
    · rw [if_pos hkc]
      by_cases hnk : name = k
      · subst hnk
        rw [lookup_cons_eq, lookup_cons_eq, if_pos hkc]
        rfl
      · rw [lookup_cons_ne hnk (g v) _, lookup_cons_ne hnk v l, ih]
    · rw [if_neg hkc]
      by_cases hnk : name = k
      · subst hnk
        rw [lookup_cons_eq, lookup_cons_eq,
          if_neg (fun e => hkc e)]
      · rw [lookup_cons_ne hnk v _, lookup_cons_ne hnk v l, ih]

theorem getCol_toDatetimeCol (parse : String → Option Timestamp)
    (t : DataTable) (c name : String) :
    getCol (toDatetimeCol parse t c) name
      = if name = c
        then (getCol t name).map (List.map (coerceCell parse))
        else getCol t name := by
  unfold toDatetimeCol getCol
  by_cases hc : (t.cols.map Prod.fst).contains c = true
  · rw [if_pos hc]
    exact lookup_map_modify (List.map (coerceCell parse)) c name t.cols
  · rw [if_neg hc]
    by_cases hn : name = c
    · subst hn
      have hnone : List.lookup name t.cols = none :=
        lookup_eq_none_of_not_mem fun hmem => hc (List.elem_iff.mpr hmem)
      rw [if_pos rfl, hnone]
      rfl
    · rw [if_neg hn]

theorem coerceCell_idem (parse : String → Option Timestamp) (x : Cell) :
    coerceCell parse (coerceCell parse x) = coerceCell parse x := by
  cases x with
  | str s => cases h : parse s <;> simp [coerceCell, h]
  | ts t => rfl
  | missing => rfl

theorem getCol_foldl (parse : String → Option Timestamp) :
    ∀ (cs : List String) (t : DataTable) (name : String),
      getCol (cs.foldl (toDatetimeCol parse) t) name
        = if name ∈ cs
          then (getCol t name).map (List.map (coerceCell parse))
          else getCol t name := by
  intro cs
  induction cs with
  | nil =>
    intro t name
    simp
  | cons c cs ih =>
    intro t name
    rw [List.foldl_cons, ih (toDatetimeCol parse t c) name, getCol_toDatetimeCol]
    by_cases h1 : name = c
    · subst h1
      by_cases h2 : name ∈ cs
      · rw [if_pos h2, if_pos rfl, if_pos (List.mem_cons_self name cs)]
        cases hg : getCol t name with
        | none => rfl
        | some cells =>
          simp [hg]
          exact fun a _ => coerceCell_idem parse a
      · rw [if_neg h2, if_pos rfl, if_pos (List.mem_cons_self name cs)]
    · by_cases h2 : name ∈ cs
      · rw [if_pos h2, if_neg h1, if_pos (List.mem_cons_of_mem c h2)]
      · rw [if_neg h2, if_neg h1,
          if_neg (fun hm => (List.mem_cons.mp hm).elim h1 h2)]

/-- C8: loading a parsed CSV coerces, cellwise, every column of the fixed
date list that is present (an individually unparsable or missing cell
becomes an explicit missing value — no exception, no row rejection: column
lengths are preserved), leaves other columns untouched, and a CSV that
fails to parse outright loads as no table after an error report. -/
theorem c8_loader_coercion (parse : String → Option Timestamp)
    (t : DataTable) (name : String) :
    load_data parse none = none
    ∧ (load_data parse (some t)).isSome = true
    ∧ (∀ lt, load_data parse (some t) = some lt →
        (name ∈ date_cols →
           getCol lt name = (getCol t name).map (List.map (coerceCell parse)))
        ∧ (name ∉ date_cols → getCol lt name = getCol t name)
        ∧ ∀ cells cells2, getCol t name = some cells →
            getCol lt name = some cells2 → cells2.length = cells.length)
    ∧ ∀ s, parse s = none → coerceCell parse (Cell.str s) = Cell.missing := by
  have hred : load_data parse (some t)
      = some (date_cols.foldl (toDatetimeCol parse) t) := rfl
  refine ⟨rfl, ?_, ?_, ?_⟩
  · rw [hred]
    rfl
  · intro lt hlt
    rw [hred] at hlt
    injection hlt with hfold
    subst hfold
    refine ⟨?_, ?_, ?_⟩
    · intro hmem
      rw [getCol_foldl parse date_cols t name, if_pos hmem]
    · intro hmem
      rw [getCol_foldl parse date_cols t name, if_neg hmem]
    · intro cells cells2 hcells hcells2
      rw [getCol_foldl parse date_cols t name] at hcells2
      by_cases hmem : name ∈ date_cols
      · rw [if_pos hmem, hcells] at hcells2
        injection hcells2 with he
        rw [← he]
        exact List.length_map cells _
      · rw [if_neg hmem, hcells] at hcells2
        injection hcells2 with he
        rw [← he]
  · intro s hs
    simp [coerceCell, hs]

theorem c8_witness :
    getCol (date_cols.foldl (toDatetimeCol sampleParse) sampleTable) "Picked on"
      = some [Cell.ts ⟨0, 0⟩, Cell.missing]
    ∧ getCol (date_cols.foldl (toDatetimeCol sampleParse) sampleTable) "Order Number"
      = some [Cell.str "1", Cell.str "2"] := by
  have h := (c8_loader_coercion sampleParse sampleTable "Picked on").2.2.1
    (date_cols.foldl (toDatetimeCol sampleParse) sampleTable) rfl
  have h2 := (c8_loader_coercion sampleParse sampleTable "Order Number").2.2.1
    (date_cols.foldl (toDatetimeCol sampleParse) sampleTable) rfl
  constructor
  · rw [h.1 (by decide)]
    rfl
  · rw [h2.2.1 (by decide)]
    rfl
